import Mathlib

/-!
Verification development for the scale-comparison repository.

The repository's core is a Rust program; its `f64` values are modelled as
real numbers (the usual floats-as-reals idealization), so `f64` arithmetic
becomes exact real arithmetic.  Overflow of `f64` is modelled by the
predicate `f64Finite x := |x| < 2 ^ 1024`: the real products whose rounded
`f64` value is infinite are exactly those at or beyond the `f64` overflow
threshold, which lies at `2 ^ 1024` up to one unit in the last place.

Components modelled, following `src/math.rs`, `src/units.rs`,
`src/animation.rs` and `src/viewport.rs`:
  * `ENumber` (Magnitude): normalized significand/exponent pairs,
  * `TimeScale` (Duration): human-readable duration formatting,
  * `AnimStep` / `Animation`: the camera finite-state machine,
  * `Viewport`: the per-tick controller `update_animation`.
-/

/-! ### Decimal-string helpers (computable)

These mirror the purely syntactic part of number formatting: turning a
natural number into its decimal digits and assembling significant-digit
strings.  They are used by the model of `float_to_string` below. -/

/-- Decimal digits of `n`, most significant first; `fuel` bounds recursion
(`fuel ≥ n` suffices, callers pass `n + 1`). Empty for `n = 0`. -/
def natDigits : ℕ → ℕ → List ℕ
  | 0, _ => []
  | fuel + 1, n => if n = 0 then [] else natDigits fuel (n / 10) ++ [n % 10]

/-- Render one decimal digit as a character. -/
def digitCh (d : ℕ) : Char := Char.ofNat (48 + d)

/-- Render a digit list as a string. -/
def digitsStr (l : List ℕ) : String := String.mk (l.map digitCh)

/-- Decimal rendering of a natural number. -/
def natStr (n : ℕ) : String :=
  if n = 0 then "0" else digitsStr (natDigits (n + 1) n)

/-- Decimal rendering of an integer. -/
def intStr (i : ℤ) : String :=
  if i < 0 then "-" ++ natStr (-i).toNat else natStr i.toNat

/-- Drop trailing zero digits (used to trim a fractional part). -/
def dropTrailingZeros (l : List ℕ) : List ℕ :=
  (l.reverse.dropWhile (fun d => d == 0)).reverse

/-- Assemble the decimal string for a value whose 5 significant digits are
the digits of `m` and whose leading digit sits at decimal position `k`
(i.e. the value is `m / 10 ^ 4 * 10 ^ k`): place the decimal point and trim
trailing zeros of the fractional part. -/
def sigDigitsStr (m : ℕ) (k : ℤ) : String :=
  let ds := natDigits (m + 1) m
  if 0 ≤ k then
    let kn := k.toNat
    let intDs :=
      if ds.length ≤ kn + 1 then ds ++ List.replicate (kn + 1 - ds.length) 0
      else ds.take (kn + 1)
    let fracDs := dropTrailingZeros (ds.drop (kn + 1))
    if fracDs.isEmpty then digitsStr intDs
    else digitsStr intDs ++ "." ++ digitsStr fracDs
  else
    let fracDs := dropTrailingZeros (List.replicate ((-k).toNat - 1) 0 ++ ds)
    "0." ++ digitsStr fracDs

/-! ### The `f64` model -/

/-- A real number is a finite `f64` when it lies strictly inside the
overflow threshold `2 ^ 1024` (idealized `is_finite`). -/
def f64Finite (x : ℝ) : Prop := |x| < (2 : ℝ) ^ (1024 : ℕ)

/-- Rust `f64::div_euclid` for a positive divisor: the floor of the
quotient (the code only ever divides by the positive constants 60/3600). -/
noncomputable def fdivEuclid (x y : ℝ) : ℝ := (⌊x / y⌋ : ℤ)

/-- Rust `f64::rem_euclid` for a positive divisor:
`x - y * (x / y).floor`. -/
noncomputable def fremEuclid (x y : ℝ) : ℝ := x - y * (⌊x / y⌋ : ℤ)

/-- Rust `f64::signum` on the reals: `1` for nonnegative input (Rust maps
`+0.0` to `1.0`), `-1` for negative input. -/
noncomputable def f64Signum (x : ℝ) : ℝ := if 0 ≤ x then 1 else -1

/-- Rust `{:.0}` formatting: round to the nearest integer and print it
(all values formatted this way in the claims are exact integers). -/
noncomputable def fmtRound0 (x : ℝ) : String := intStr (round x)

/-! ### Magnitude (`ENumber`, from `src/math.rs`) -/

/-- `struct ENumber { significand: f64, exponent: f64 }`. -/
structure ENumber where
  significand : ℝ
  exponent : ℝ

/-- `ENumber::normalize`: zero significand collapses to `{0, 0}`; otherwise
the exponent is adjusted by `floor(log10(|significand|))` and the
significand divided by `10^adjustment`.  The adjustment is an integer, kept
in `ℤ` and cast where the Rust code keeps it in `f64`. -/
noncomputable def ENumber.normalize (significand exponent : ℝ) : ENumber :=
  if significand = 0 then ⟨significand, 0⟩
  else
    let adjustment : ℤ := ⌊Real.logb 10 |significand|⌋
    ⟨significand / (10 : ℝ) ^ adjustment, exponent + (adjustment : ℝ)⟩

/-- `ENumber::new(significand, exponent: i32)`. -/
noncomputable def ENumber.new (significand : ℝ) (exponent : ℤ) : ENumber :=
  ENumber.normalize significand (exponent : ℝ)

/-- `ENumber::from_exp`. -/
noncomputable def ENumber.from_exp (exponent : ℝ) : ENumber :=
  ENumber.normalize 1 exponent

/-- `impl Mul<ENumber> for ENumber`. -/
noncomputable def ENumber.mul (a b : ENumber) : ENumber :=
  ENumber.normalize (a.significand * b.significand) (a.exponent + b.exponent)

/-- `impl Div<ENumber> for ENumber`. -/
noncomputable def ENumber.div (a b : ENumber) : ENumber :=
  ENumber.normalize (a.significand / b.significand) (a.exponent - b.exponent)

/-- `impl Mul<f64> for ENumber`. -/
noncomputable def ENumber.mulF (a : ENumber) (x : ℝ) : ENumber :=
  ENumber.normalize (a.significand * x) a.exponent

/-- `impl Div<f64> for ENumber`. -/
noncomputable def ENumber.divF (a : ENumber) (x : ℝ) : ENumber :=
  ENumber.normalize (a.significand / x) a.exponent

/-- The real value `significand * 10^exponent` (the `result` computed by
`collapse`/`limit_collapse`; the power is a real power since the exponent
is a continuous `f64`). -/
noncomputable def ENumber.value (a : ENumber) : ℝ :=
  a.significand * (10 : ℝ) ^ a.exponent

/-- `ENumber::erect`: `(signum(significand), exponent + log10(|significand|))`. -/
noncomputable def ENumber.erect (a : ENumber) : ℝ × ℝ :=
  (f64Signum a.significand, a.exponent + Real.logb 10 |a.significand|)

/-- `ENumber::collapse`: the value when it is a finite `f64`, absent
otherwise. -/
noncomputable def ENumber.collapse (a : ENumber) : Option ℝ :=
  @ite _ (f64Finite a.value) (Classical.propDecidable _) (some a.value) none

/-- `ENumber::limit_collapse`: `result.min(max)`, never absent. -/
noncomputable def ENumber.limit_collapse (a : ENumber) (max : ℝ) : ℝ :=
  min a.value max

/-- `ENumber::to_scale`. -/
noncomputable def ENumber.to_scale (a : ENumber) (scale max : ℝ) : ℝ :=
  (a.div (ENumber.from_exp scale)).limit_collapse max

/-! ### Duration (`TimeScale`, from `src/units.rs`) -/

def MINUTE : ℝ := 60
def HOUR : ℝ := 3600
def DAY : ℝ := 86400
def YEAR : ℝ := 31556952
def MEGA : ℝ := 1000000
def GIGA : ℝ := 1000000000
def TERA : ℝ := 1000000000000
def PETA : ℝ := 1000000000000000

/-- Modelled from the spec: the repository's `utils.rs` (declared by
`lib.rs` but absent from the sources) provides `float_to_string`, which the
spec describes as rendering a float "rounded/trimmed to a small fixed
number of significant digits".  We model it as: keep the first 5
significant digits (truncated), place the decimal point, and trim trailing
zeros of the fractional part, which reproduces every literal expected
string of the repository's formatting tests. -/
noncomputable def float_to_string (x : ℝ) : String :=
  if x = 0 then "0"
  else
    let k : ℤ := ⌊Real.logb 10 |x|⌋
    let m : ℕ := (⌊|x| * (10 : ℝ) ^ ((4 : ℤ) - k)⌋).toNat
    (if x < 0 then "-" else "") ++ sigDigitsStr m k

/-- Modelled from the spec: Rust's `Display` for the `f64` exponent inside
`format!("{}e{}", ..)` prints integral values without a decimal point; the
claims only ever exercise integral exponents, non-integral ones reuse
`float_to_string`. -/
noncomputable def f64Str (x : ℝ) : String :=
  if x = (⌊x⌋ : ℤ) then intStr ⌊x⌋ else float_to_string x

/-- `ENumber::fmt_exp_break`: an ordinary decimal via `collapse()` when the
exponent lies inside the symmetric break range, scientific form otherwise.
(The code `expect`s the collapse to be present in the first branch; the
model defaults the impossible absent case to `0`.) -/
noncomputable def ENumber.fmt_exp_break (a : ENumber) (exp_break : ℕ) : String :=
  if -(exp_break : ℝ) ≤ a.exponent ∧ a.exponent ≤ (exp_break : ℝ) then
    float_to_string ((a.collapse).getD 0)
  else
    float_to_string a.significand ++ "e" ++ f64Str a.exponent

/-- The common fallback of `impl Display for TimeScale` (lines 78-83 of
`units.rs`): scientific notation in years when the exponent's signum is
`1.` (in Rust that includes `+0.0`), in seconds otherwise. -/
noncomputable def ENumber.timeFallback (a : ENumber) : String :=
  if 0 ≤ a.exponent then (a.divF YEAR).fmt_exp_break 6 ++ " y"
  else a.fmt_exp_break 6 ++ " s"

/-- `struct TimeScale(ENumber, ..)` (the skipped editor field is modelled
separately). -/
structure TimeScale where
  val : ENumber

/-- `From<f64> for TimeScale` via `ENumber::from`. -/
noncomputable def TimeScale.of (x : ℝ) : TimeScale := ⟨ENumber.normalize x 0⟩

/-- The `Some`-branch of `impl Display for TimeScale`: unit cascading on
the collapsed seconds value `c`; the `>= PETA` years case falls through to
the common fallback. -/
noncomputable def TimeScale.displaySome (a : ENumber) (c : ℝ) : String :=
  if c ≤ MINUTE then a.fmt_exp_break 6 ++ " s"
  else if c ≤ HOUR then
    let mins := fdivEuclid c MINUTE
    let secs := fremEuclid c MINUTE
    fmtRound0 mins ++ " m" ++ (if secs ≠ 0 then " " ++ fmtRound0 secs ++ " s" else "")
  else if c ≤ DAY then
    let hrs := fdivEuclid c HOUR
    let mins := fremEuclid c HOUR / MINUTE
    fmtRound0 hrs ++ " h" ++ (if mins ≠ 0 then " " ++ fmtRound0 mins ++ " m" else "")
  else if c ≤ YEAR then
    float_to_string (c / DAY) ++ " d"
  else
    let yrs := c / YEAR
    if yrs < MEGA then float_to_string yrs ++ " y"
    else if yrs < GIGA then float_to_string (yrs / MEGA) ++ " My"
    else if yrs < TERA then float_to_string (yrs / GIGA) ++ " Gy"
    else if yrs < PETA then float_to_string (yrs / TERA) ++ " Ty"
    else a.timeFallback

/-- `impl Display for TimeScale`. -/
noncomputable def TimeScale.display (t : TimeScale) : String :=
  match t.val.collapse with
  | some c => TimeScale.displaySome t.val c
  | none => t.val.timeFallback

/-- `TimeScale::from_years`. -/
noncomputable def TimeScale.from_years (years : ENumber) : TimeScale :=
  ⟨years.mulF YEAR⟩

/-! ### Animation step state machine (`src/animation.rs`) -/

/-- `enum AnimStep`. -/
inductive AnimStep where
  | Idle (countdown : ℕ)
  | Scaling
  | Slowing (countdown : ℕ)
  | Pausing (countdown : ℕ)
  | Shifting (countdown : ℕ)
  deriving DecidableEq

/-- `Animation::FRAME_DURATION` (milliseconds per tick). -/
def FRAME_DURATION : ℕ := 16

/-- `Animation::FPS = 1000. / FRAME_DURATION`, computed exactly (the `f64`
value `62.5` is exact). -/
def FPS_Q : ℚ := 1000 / (FRAME_DURATION : ℚ)

def IDLE_TIME : ℚ := 1
def PAUSING_TIME : ℚ := 3
def SLOWING_TIME : ℚ := 1 / 10
def SHIFTING_TIME : ℚ := 2

/-- `(Self::IDLE_TIME * Animation::FPS) as u64` (truncation toward zero;
the tiny `f64` representation error of `0.1` does not cross an integer
boundary, so the exact rational floor agrees with the compiled constant;
the lemmas `IDLE_FRAMES_def` &c. below certify the values). -/
def IDLE_FRAMES : ℕ := 62
def PAUSING_FRAMES : ℕ := 187
def SLOWING_FRAMES : ℕ := 6
def SHIFTING_FRAMES : ℕ := 125

/-- `impl Default for AnimStep`: the cycle starts mid-way, in `Shifting`
with its full nominal countdown. -/
def AnimStep.default : AnimStep := .Shifting SHIFTING_FRAMES

/-- `AnimStep::next`: the cyclic successor, re-seeded with its nominal
frame count. -/
def AnimStep.next : AnimStep → AnimStep
  | .Idle _ => .Scaling
  | .Scaling => .Slowing SLOWING_FRAMES
  | .Slowing _ => .Pausing PAUSING_FRAMES
  | .Pausing _ => .Shifting SHIFTING_FRAMES
  | .Shifting _ => .Idle IDLE_FRAMES

/-- `AnimStep::advance`, as a pure transition function. -/
def AnimStep.advance (s : AnimStep) (scaling_done slowing_done : Bool) : AnimStep :=
  match s with
  | .Idle i => if 0 < i then .Idle (i - 1) else (AnimStep.Idle i).next
  | .Pausing i => if 0 < i then .Pausing (i - 1) else (AnimStep.Pausing i).next
  | .Shifting i => if 0 < i then .Shifting (i - 1) else (AnimStep.Shifting i).next
  | .Scaling => if scaling_done then AnimStep.Scaling.next else .Scaling
  | .Slowing i =>
      if slowing_done = true ∨ i = 0 then (AnimStep.Slowing i).next
      else .Slowing (i - 1)

/-- Iterate `advance` over a per-tick list of
`(scaling_done, slowing_done)` inputs. -/
def AnimStep.run (s : AnimStep) (inputs : List (Bool × Bool)) : AnimStep :=
  inputs.foldl (fun st p => st.advance p.1 p.2) s

/-- `struct Animation`. -/
structure Animation where
  active : Bool
  frame : ℕ
  step : AnimStep

/-- `#[derive(Default)] Animation`. -/
def Animation.default : Animation := ⟨false, 0, AnimStep.default⟩

/-- `Animation::tick`. -/
def Animation.tick (a : Animation) (scaling_done slowing_done : Bool) : Animation :=
  { a with frame := a.frame + 1, step := a.step.advance scaling_done slowing_done }

/-! ### Easing (the `simple_easing` dependency, standard cubic curves) -/

/-- Ease-in cubic `t^3`. -/
noncomputable def cubic_in (t : ℝ) : ℝ := t ^ 3

/-- Ease-out cubic `1 - (1 - t)^3`. -/
noncomputable def cubic_out (t : ℝ) : ℝ := 1 - (1 - t) ^ 3

/-- Ease-in-out cubic. -/
noncomputable def cubic_in_out (t : ℝ) : ℝ :=
  if t < 1 / 2 then 4 * t ^ 3 else 1 - (-2 * t + 2) ^ 3 / 2

/-! ### Things and the viewport controller (`src/thing.rs`, `src/viewport.rs`) -/

/-- `struct Thing { name, value }`. -/
structure Thing where
  name : String
  value : TimeScale

/-- `Thing::scale`: the erected continuous log10 magnitude of the value. -/
noncomputable def Thing.scale (t : Thing) : ℝ := t.value.val.erect.2

/-- `Thing::BAR_OFFSET = BAR_WIDTH + BAR_GAP = 40 + 100`. -/
def BAR_OFFSET : ℝ := 40 + 100

def MAX_HEIGHT : ℝ := 1000
def SCALE_PADDING : ℝ := 2.85
def IDLE_SCALE_SPEED : ℝ := 0.025
def SCALE_ACCELERATION : ℝ := 0.25
def INITIAL_SLOW_SCALE_SPEED : ℝ := 3
def INITIAL_CAMERA_POSITION : ℝ × ℝ := (0, 350)

/-- `Animation::FPS` as used in the real-valued kinematics. -/
noncomputable def FPS : ℝ := 1000 / 16

/-- `struct Viewport` (the camera `Affine` is translation-only; we model
its translation vector). -/
structure Viewport where
  animation : Animation
  scale : ℝ
  scale_speed : ℝ
  slow_scale_speed : ℝ
  prev_shift : ℝ
  shift : ℝ
  camera : ℝ × ℝ

/-- `Viewport::init`. -/
noncomputable def Viewport.init (things : List Thing) : Viewport :=
  { animation := Animation.default
    scale := ((things.head?).map (fun th => th.scale - SCALE_PADDING)).getD 0
    scale_speed := IDLE_SCALE_SPEED
    slow_scale_speed := 0
    prev_shift := 0
    shift := 0
    camera := INITIAL_CAMERA_POSITION }

/-- The `scaling_done` predicate of `Viewport::update_animation`: the shift
pointer is at or before the first item, or the pointed-at item's magnitude
is within `SCALE_PADDING` of the current scale. -/
noncomputable def Viewport.scalingDone (v : Viewport) (things : List Thing) : Bool :=
  if ⌊v.shift⌋ ≤ 0 then true
  else
    match things.get? ((⌊v.shift⌋).toNat - 1) with
    | some th => @decide (th.scale - v.scale ≤ SCALE_PADDING) (Classical.propDecidable _)
    | none => false

/-- The `slowing_done` predicate of `Viewport::update_animation`. -/
noncomputable def Viewport.slowingDone (v : Viewport) : Bool :=
  @decide (v.scale_speed ≤ IDLE_SCALE_SPEED) (Classical.propDecidable _)

/-- The per-state effects on `scale_speed` / `slow_scale_speed` / `shift`
(`match self.animation.step` in `Viewport::update_animation`, applied after
the animation has ticked). -/
noncomputable def Viewport.applyStep (v : Viewport) : Viewport :=
  match v.animation.step with
  | .Idle _ => { v with scale_speed := IDLE_SCALE_SPEED }
  | .Pausing _ => { v with scale_speed := IDLE_SCALE_SPEED }
  | .Scaling => { v with scale_speed := v.scale_speed + SCALE_ACCELERATION / FPS }
  | .Slowing i =>
      let slow :=
        if i = SLOWING_FRAMES then min v.scale_speed INITIAL_SLOW_SCALE_SPEED
        else v.slow_scale_speed
      if 0 < i then
        let progress := (i : ℝ) / (SLOWING_FRAMES : ℝ)
        { v with
            slow_scale_speed := slow
            scale_speed :=
              IDLE_SCALE_SPEED + (slow - IDLE_SCALE_SPEED) * cubic_out progress }
      else { v with slow_scale_speed := slow, scale_speed := IDLE_SCALE_SPEED }
  | .Shifting i =>
      if 0 < i then
        let progress := 1 - (i : ℝ) / (SHIFTING_FRAMES : ℝ)
        { v with shift := v.prev_shift + cubic_in_out progress }
      else { v with prev_shift := v.prev_shift + 1, shift := v.prev_shift + 1 }

/-- `Viewport::update_animation`: compute the two predicates, tick the
animation, apply the per-state effects, integrate the scale, recompute the
camera translation. -/
noncomputable def Viewport.update_animation (v : Viewport) (things : List Thing) : Viewport :=
  let sd := v.scalingDone things
  let sl := v.slowingDone
  let v1 := { v with animation := v.animation.tick sd sl }
  let v2 := v1.applyStep
  let v3 := { v2 with scale := v2.scale + v2.scale_speed / FPS }
  { v3 with
      camera :=
        (INITIAL_CAMERA_POSITION.1 + -(BAR_OFFSET * v3.shift),
         INITIAL_CAMERA_POSITION.2) }

/-! ### The significand/exponent text editor (`ENumberEditor`) -/

/-- `struct ENumberEditor`. -/
structure ENumberEditor where
  editing : Bool
  significand : String
  exponent : String

/-- `TryInto<ENumber> for ENumberEditor`, parameterized by the host
language's float parser (`str::parse::<f64>`): both fields must parse, and
the result is normalized. -/
noncomputable def tryIntoENumber (parse : String → Option ℝ)
    (ed : ENumberEditor) : Option ENumber :=
  match parse ed.significand with
  | none => none
  | some s =>
      match parse ed.exponent with
      | none => none
      | some e => some (ENumber.normalize s e)

/-- The `Ok` button handler of `TimeScale::view`: commit the parsed value
if and only if `try_into` succeeds, and leave editing mode either way.
Returns the committed `ENumber` and the new `editing` flag. -/
noncomputable def commitEdit (parse : String → Option ℝ) (current : ENumber)
    (ed : ENumberEditor) : ENumber × Bool :=
  match tryIntoENumber parse ed with
  | some n => (n, false)
  | none => (current, false)

theorem floor_logb_eq (x : ℝ) (k : ℤ) (hx : 0 < x)
    (h1 : (10:ℝ) ^ k ≤ x) (h2 : x < (10:ℝ) ^ (k+1)) :
    ⌊Real.logb 10 x⌋ = k := by
  have hb : (1:ℝ) < 10 := by norm_num
  rw [Int.floor_eq_iff]
  constructor
  · rw [Real.le_logb_iff_rpow_le hb hx, Real.rpow_intCast]
    exact h1
  · rw [Real.logb_lt_iff_lt_rpow hb hx]
    have hc : ((k:ℝ) + 1) = ((k + 1 : ℤ) : ℝ) := by push_cast; ring
    rw [hc, Real.rpow_intCast]
    exact h2

theorem normalize_of_ne (s e : ℝ) (hs : s ≠ 0) :
    ENumber.normalize s e =
      ⟨s / (10:ℝ) ^ ⌊Real.logb 10 |s|⌋, e + (⌊Real.logb 10 |s|⌋ : ℝ)⟩ := by
  simp [ENumber.normalize, hs]

theorem normalize_eval (s e : ℝ) (k : ℤ) (hs : s ≠ 0)
    (h1 : (10:ℝ) ^ k ≤ |s|) (h2 : |s| < (10:ℝ) ^ (k+1)) :
    ENumber.normalize s e = ⟨s / (10:ℝ) ^ k, e + (k:ℝ)⟩ := by
  rw [normalize_of_ne s e hs, floor_logb_eq |s| k (abs_pos.2 hs) h1 h2]

theorem value_normalize (s e : ℝ) :
    (ENumber.normalize s e).value = s * (10:ℝ) ^ e := by
  by_cases hs : s = 0
  · simp [ENumber.normalize, ENumber.value, hs]
  · rw [normalize_of_ne s e hs]
    have hz : ((10:ℝ) ^ ⌊Real.logb 10 |s|⌋) ≠ 0 := zpow_ne_zero _ (by norm_num)
    simp only [ENumber.value]
    rw [Real.rpow_add (by norm_num : (0:ℝ) < 10), Real.rpow_intCast]
    field_simp
    ring

theorem collapse_of_finite (a : ENumber) (h : f64Finite a.value) :
    a.collapse = some a.value := by
  simp only [ENumber.collapse]
  rw [if_pos h]

theorem collapse_of_infinite (a : ENumber) (h : ¬ f64Finite a.value) :
    a.collapse = none := by
  simp only [ENumber.collapse]
  rw [if_neg h]

/-- C1: `normalize(s, e)` returns `{0, 0}` for zero significand and
otherwise restores the invariant `1 ≤ |significand| < 10`, adjusting the
exponent by `floor(log10 |s|)` and dividing the significand by `10` to
that adjustment. -/
theorem C1_normalize_invariant (s e : ℝ) :
    (s = 0 → ENumber.normalize s e = ⟨0, 0⟩) ∧
    (s ≠ 0 →
      1 ≤ |(ENumber.normalize s e).significand| ∧
      |(ENumber.normalize s e).significand| < 10 ∧
      (ENumber.normalize s e).exponent = e + (⌊Real.logb 10 |s|⌋ : ℝ) ∧
      (ENumber.normalize s e).significand = s / (10:ℝ) ^ ⌊Real.logb 10 |s|⌋) := by
  constructor
  · intro hs; simp [ENumber.normalize, hs]
  · intro hs
    have hb : (1:ℝ) < 10 := by norm_num
    set k := ⌊Real.logb 10 |s|⌋ with hk
    have habs : 0 < |s| := abs_pos.2 hs
    have hxk : (10:ℝ) ^ k ≤ |s| := by
      calc (10:ℝ) ^ k = (10:ℝ) ^ ((k:ℝ)) := (Real.rpow_intCast 10 k).symm
        _ ≤ (10:ℝ) ^ Real.logb 10 |s| :=
            (Real.rpow_le_rpow_left_iff hb).mpr (Int.floor_le _)
        _ = |s| := Real.rpow_logb (by norm_num) (by norm_num) habs
    have hxk1 : |s| < (10:ℝ) ^ (k + 1) := by
      calc |s| = (10:ℝ) ^ Real.logb 10 |s| :=
            (Real.rpow_logb (by norm_num) (by norm_num) habs).symm
        _ < (10:ℝ) ^ ((k:ℝ) + 1) :=
            (Real.rpow_lt_rpow_left_iff hb).mpr (Int.lt_floor_add_one _)
        _ = (10:ℝ) ^ (k + 1) := by
            rw [show ((k:ℝ) + 1) = ((k + 1 : ℤ) : ℝ) by push_cast; ring,
              Real.rpow_intCast]
    rw [normalize_of_ne s e hs]
    have hzpos : (0:ℝ) < (10:ℝ) ^ k := zpow_pos (by norm_num) k
    refine ⟨?_, ?_, rfl, rfl⟩
    · rw [abs_div, abs_of_pos hzpos, one_le_div hzpos]
      exact hxk
    · rw [abs_div, abs_of_pos hzpos, div_lt_iff₀ hzpos]
      have h10 : (10:ℝ) ^ (k + 1) = 10 * (10:ℝ) ^ k := by
        rw [zpow_add_one₀ (by norm_num : (10:ℝ) ≠ 0)]; ring
      linarith [hxk1]

/-- Witness for C1 at concrete inputs. -/
theorem C1_normalize_invariant_witness :
    (1 ≤ |(ENumber.normalize 3 5).significand| ∧
      |(ENumber.normalize 3 5).significand| < 10) ∧
    ENumber.normalize 0 7 = ⟨0, 0⟩ :=
  ⟨⟨((C1_normalize_invariant 3 5).2 (by norm_num)).1,
    ((C1_normalize_invariant 3 5).2 (by norm_num)).2.1⟩,
   (C1_normalize_invariant 0 7).1 rfl⟩

/-- C2: `collapse()` yields the product `significand * 10^exponent` exactly
when that product is a finite `f64`, and is absent otherwise; in
particular `{3.4, 309}` collapses to absent and `{3.4, -76}` to a present
value. -/
theorem C2_collapse_iff :
    (∀ a : ENumber, f64Finite a.value → a.collapse = some a.value) ∧
    (∀ a : ENumber, ¬ f64Finite a.value → a.collapse = none) ∧
    (ENumber.new 3.4 309).collapse = none ∧
    (ENumber.new 3.4 (-76)).collapse = some ((3.4 : ℝ) * (10:ℝ) ^ (-76 : ℤ)) := by
  refine ⟨collapse_of_finite, collapse_of_infinite, ?_, ?_⟩
  · apply collapse_of_infinite
    rw [ENumber.new, value_normalize]
    unfold f64Finite
    push_neg
    rw [show (((309:ℤ)):ℝ) = ((309:ℕ):ℝ) by norm_num, Real.rpow_natCast,
      abs_of_pos (by positivity)]
    norm_num
  · have hval : (ENumber.new 3.4 (-76)).value = (3.4:ℝ) * (10:ℝ) ^ (-76 : ℤ) := by
      rw [ENumber.new, value_normalize, Real.rpow_intCast]
    rw [← hval]
    apply collapse_of_finite
    rw [hval]
    unfold f64Finite
    rw [abs_of_pos (by positivity)]
    have h76 : (10:ℝ) ^ (-76 : ℤ) = ((10:ℝ) ^ (76:ℕ))⁻¹ := by
      rw [zpow_neg]; norm_num
    rw [h76]
    have h1 : ((10:ℝ) ^ (76:ℕ))⁻¹ ≤ 1 := by
      rw [inv_le_one_iff₀]
      right; exact one_le_pow₀ (by norm_num)
    nlinarith [h1]

/-- Witness for C2 at a concrete finite input. -/
theorem C2_collapse_iff_witness :
    f64Finite (ENumber.mk 1 0).value ∧
    (ENumber.mk 1 0).collapse = some (ENumber.mk 1 0).value := by
  have hf : f64Finite (ENumber.mk 1 0).value := by
    unfold f64Finite ENumber.value
    rw [Real.rpow_zero]
    norm_num
  exact ⟨hf, C2_collapse_iff.1 _ hf⟩

/-- C3 counterexample: the claim quantifies over every finite Magnitude
`b`, but for the zero Magnitude `b = {0,0}` (which is finite) the
round-trip fails: `({1,0} * {0,0}) / {0,0} = {0,0} ≠ {1,0}`. -/
theorem C3_counterexample :
    ¬ ((ENumber.mul ⟨1, 0⟩ ⟨0, 0⟩).div ⟨0, 0⟩ = (⟨1, 0⟩ : ENumber)) := by
  have h1 : ENumber.mul ⟨1, 0⟩ ⟨0, 0⟩ = ⟨0, 0⟩ := by
    simp [ENumber.mul, ENumber.normalize]
  have h2 : ENumber.div ⟨0, 0⟩ ⟨0, 0⟩ = ⟨0, 0⟩ := by
    simp [ENumber.div, ENumber.normalize]
  rw [h1, h2]
  intro h
  have hs := congrArg ENumber.significand h
  norm_num at hs

/-- C3 amended: for a normalized `a` and a Magnitude `b` with non-zero
significand, multiplication and division round-trip exactly. -/
theorem C3_mul_div_roundtrip (a b : ENumber)
    (ha1 : 1 ≤ |a.significand|) (ha2 : |a.significand| < 10)
    (hb : b.significand ≠ 0) :
    (a.mul b).div b = a := by
  obtain ⟨sa, ea⟩ := a
  obtain ⟨sb, eb⟩ := b
  simp only at ha1 ha2 hb
  have hsa : sa ≠ 0 := by
    intro h; rw [h] at ha1; norm_num at ha1
  have hmulne : sa * sb ≠ 0 := mul_ne_zero hsa hb
  simp only [ENumber.mul]
  rw [normalize_of_ne _ _ hmulne]
  set c := ⌊Real.logb 10 |sa * sb|⌋ with hc
  simp only [ENumber.div]
  have hzc : ((10:ℝ) ^ c) ≠ 0 := zpow_ne_zero _ (by norm_num)
  have harg : sa * sb / (10:ℝ) ^ c / sb = sa / (10:ℝ) ^ c := by
    field_simp; ring
  have hexp : ea + eb + (c:ℝ) - eb = ea + (c:ℝ) := by ring
  rw [harg, hexp]
  have hdne : sa / (10:ℝ) ^ c ≠ 0 := div_ne_zero hsa hzc
  rw [normalize_of_ne _ _ hdne]
  have hfloor0 : ⌊Real.logb 10 |sa|⌋ = 0 := by
    apply floor_logb_eq _ _ (abs_pos.2 hsa)
    · simpa using ha1
    · simpa using ha2
  have hlogb : Real.logb 10 (|sa| / (10:ℝ) ^ c) = Real.logb 10 |sa| - (c:ℝ) := by
    rw [Real.logb_div (ne_of_gt (abs_pos.2 hsa)) hzc]
    congr 1
    rw [← Real.rpow_intCast 10 c, Real.logb_rpow (by norm_num) (by norm_num)]
  have habs : |sa / (10:ℝ) ^ c| = |sa| / (10:ℝ) ^ c := by
    rw [abs_div, abs_of_pos (zpow_pos (show (0:ℝ) < 10 by norm_num) c)]
  have hfloor : ⌊Real.logb 10 |sa / (10:ℝ) ^ c|⌋ = -c := by
    rw [habs, hlogb, Int.floor_sub_int, hfloor0]; ring
  rw [hfloor]
  have hsig : sa / (10:ℝ) ^ c / (10:ℝ) ^ (-c) = sa := by
    rw [zpow_neg]; field_simp
  have hexp2 : ea + (c:ℝ) + ((-c : ℤ) : ℝ) = ea := by push_cast; ring
  rw [hsig, hexp2]

/-- Witness for the amended C3 at concrete inputs. -/
theorem C3_mul_div_roundtrip_witness :
    (ENumber.mul ⟨2, 3⟩ ⟨5, 7⟩).div ⟨5, 7⟩ = (⟨2, 3⟩ : ENumber) :=
  C3_mul_div_roundtrip ⟨2, 3⟩ ⟨5, 7⟩ (by norm_num) (by norm_num) (by norm_num)

/-- C5: `to_scale` is clamped by `max`, and `limit_collapse` always
returns (it is total) the minimum of the collapsed product and `max`. -/
theorem C5_to_scale_clamped (a : ENumber) (scale max : ℝ) :
    a.to_scale scale max ≤ max ∧ a.limit_collapse max = min a.value max :=
  ⟨min_le_right _ _, rfl⟩

/-- C10: `Viewport::init` is total; the empty list seeds `scale = 0`, a
non-empty list seeds it from the first item's erected magnitude minus the
padding, and the remaining fields are fixed. -/
theorem C10_init_total :
    ((Viewport.init []).scale = 0) ∧
    (∀ t ts, (Viewport.init (t :: ts)).scale = t.scale - SCALE_PADDING) ∧
    (∀ things, (Viewport.init things).scale_speed = IDLE_SCALE_SPEED ∧
      (Viewport.init things).slow_scale_speed = 0 ∧
      (Viewport.init things).shift = 0 ∧
      (Viewport.init things).prev_shift = 0 ∧
      (Viewport.init things).animation = Animation.default ∧
      (Viewport.init things).camera = INITIAL_CAMERA_POSITION) :=
  ⟨rfl, fun _ _ => rfl, fun _ => ⟨rfl, rfl, rfl, rfl, rfl, rfl⟩⟩

/-- C9: a failed parse of either text field leaves the committed value
unchanged; no partial state is applied. -/
theorem C9_reject_bad_edit (parse : String → Option ℝ) (ed : ENumberEditor)
    (cur : ENumber) :
    (tryIntoENumber parse ed = none → commitEdit parse cur ed = (cur, false)) ∧
    (parse ed.significand = none → commitEdit parse cur ed = (cur, false)) ∧
    (parse ed.exponent = none → commitEdit parse cur ed = (cur, false)) := by
  refine ⟨fun h => by simp [commitEdit, h], fun h => ?_, fun h => ?_⟩
  · simp [commitEdit, tryIntoENumber, h]
  · cases hsig : parse ed.significand <;>
      simp [commitEdit, tryIntoENumber, hsig, h]

/-- Witness for C9: a parser that rejects everything leaves the committed
value unchanged. -/
theorem C9_reject_bad_edit_witness :
    commitEdit (fun _ => none) ⟨1, 2⟩ ⟨true, "x", "y"⟩ = (⟨1, 2⟩, false) :=
  (C9_reject_bad_edit (fun _ => none) ⟨true, "x", "y"⟩ ⟨1, 2⟩).1 rfl

theorem run_cons (s : AnimStep) (p : Bool × Bool) (ins : List (Bool × Bool)) :
    AnimStep.run s (p :: ins) = AnimStep.run (s.advance p.1 p.2) ins := rfl

theorem run_shifting_countdown :
    ∀ (ins : List (Bool × Bool)) (n : ℕ), ins.length = n + 1 →
      AnimStep.run (.Shifting n) ins = .Idle IDLE_FRAMES := by
  intro ins
  induction ins with
  | nil => intro n h; simp at h
  | cons p rest ih =>
    intro n h
    simp only [List.length_cons] at h
    have hlen : rest.length = n := by omega
    cases n with
    | zero =>
      have hnil : rest = [] := List.length_eq_zero.mp hlen
      subst hnil
      simp [AnimStep.run, AnimStep.advance, AnimStep.next]
    | succ m =>
      rw [run_cons, show AnimStep.advance (.Shifting (m + 1)) p.1 p.2
          = .Shifting m by simp [AnimStep.advance]]
      exact ih m hlen

theorem run_idle_countdown :
    ∀ (ins : List (Bool × Bool)) (n : ℕ), ins.length = n + 1 →
      AnimStep.run (.Idle n) ins = .Scaling := by
  intro ins
  induction ins with
  | nil => intro n h; simp at h
  | cons p rest ih =>
    intro n h
    simp only [List.length_cons] at h
    have hlen : rest.length = n := by omega
    cases n with
    | zero =>
      have hnil : rest = [] := List.length_eq_zero.mp hlen
      subst hnil
      simp [AnimStep.run, AnimStep.advance, AnimStep.next]
    | succ m =>
      rw [run_cons, show AnimStep.advance (.Idle (m + 1)) p.1 p.2
          = .Idle m by simp [AnimStep.advance]]
      exact ih m hlen

/-- C4: from the default `Shifting` state with its full nominal countdown,
any `F + 1` ticks (predicates irrelevant) reach `Idle(I)`; any further
`I + 1` ticks reach `Scaling`; `Scaling` persists while `scaling_done` is
false and moves to `Slowing` with the nominal countdown on the first true
tick. -/
theorem C4_state_cycle :
    Animation.default.step = .Shifting SHIFTING_FRAMES ∧
    (∀ ins : List (Bool × Bool), ins.length = SHIFTING_FRAMES + 1 →
      AnimStep.run AnimStep.default ins = .Idle IDLE_FRAMES) ∧
    (∀ ins : List (Bool × Bool), ins.length = IDLE_FRAMES + 1 →
      AnimStep.run (.Idle IDLE_FRAMES) ins = .Scaling) ∧
    (∀ sl : Bool, AnimStep.Scaling.advance false sl = .Scaling) ∧
    (∀ sl : Bool, AnimStep.Scaling.advance true sl = .Slowing SLOWING_FRAMES) := by
  refine ⟨rfl, fun ins h => run_shifting_countdown ins _ h,
    fun ins h => run_idle_countdown ins _ h,
    fun sl => rfl, fun sl => rfl⟩

/-- Witness for C4 with concrete predicate streams. -/
theorem C4_state_cycle_witness :
    AnimStep.run AnimStep.default
        (List.replicate (SHIFTING_FRAMES + 1) (false, false)) = .Idle IDLE_FRAMES ∧
    AnimStep.run (.Idle IDLE_FRAMES)
        (List.replicate (IDLE_FRAMES + 1) (true, true)) = .Scaling ∧
    AnimStep.Scaling.advance false true = .Scaling ∧
    AnimStep.Scaling.advance true false = .Slowing SLOWING_FRAMES :=
  ⟨C4_state_cycle.2.1 _ (List.length_replicate _ _),
   C4_state_cycle.2.2.1 _ (List.length_replicate _ _),
   C4_state_cycle.2.2.2.1 true, C4_state_cycle.2.2.2.2 false⟩

theorem cubic_out_nonneg (t : ℝ) (h : 0 ≤ t) : 0 ≤ cubic_out t := by
  unfold cubic_out
  nlinarith [sq_nonneg (t - 3/2), mul_nonneg h (sq_nonneg (t - 3/2)), h]

theorem update_animation_eq (v : Viewport) (things : List Thing) :
    v.update_animation things =
      (fun v2 : Viewport =>
        { v2 with
            scale := v2.scale + v2.scale_speed / FPS
            camera := (INITIAL_CAMERA_POSITION.1 + -(BAR_OFFSET * v2.shift),
              INITIAL_CAMERA_POSITION.2) })
      (Viewport.applyStep
        { v with animation := v.animation.tick (v.scalingDone things) v.slowingDone }) :=
  rfl

theorem applyStep_props (w : Viewport)
    (hspeed : IDLE_SCALE_SPEED ≤ w.scale_speed)
    (hslow : ∀ i, w.animation.step = .Slowing i → i ≠ SLOWING_FRAMES →
      IDLE_SCALE_SPEED ≤ w.slow_scale_speed) :
    IDLE_SCALE_SPEED ≤ w.applyStep.scale_speed ∧
    w.applyStep.scale = w.scale ∧
    w.applyStep.animation = w.animation ∧
    (∀ i, w.animation.step = .Slowing i →
      IDLE_SCALE_SPEED ≤ w.applyStep.slow_scale_speed) := by
  cases hstep : w.animation.step with
  | Idle n =>
    have ha : w.applyStep = { w with scale_speed := IDLE_SCALE_SPEED } := by
      simp only [Viewport.applyStep, hstep]
    exact ⟨by rw [ha], by rw [ha], by rw [ha],
      fun i hi => by simp at hi⟩
  | Pausing n =>
    have ha : w.applyStep = { w with scale_speed := IDLE_SCALE_SPEED } := by
      simp only [Viewport.applyStep, hstep]
    exact ⟨by rw [ha], by rw [ha], by rw [ha],
      fun i hi => by simp at hi⟩
  | Scaling =>
    have ha : w.applyStep =
        { w with scale_speed := w.scale_speed + SCALE_ACCELERATION / FPS } := by
      simp only [Viewport.applyStep, hstep]
    have hacc : (0:ℝ) < SCALE_ACCELERATION / FPS := by
      norm_num [SCALE_ACCELERATION, FPS]
    exact ⟨by rw [ha]; dsimp only; linarith, by rw [ha], by rw [ha],
      fun i hi => by simp at hi⟩
  | Shifting n =>
    by_cases h0 : 0 < n
    · have ha : w.applyStep =
          { w with shift := w.prev_shift +
              cubic_in_out (1 - (n : ℝ) / (SHIFTING_FRAMES : ℝ)) } := by
        simp only [Viewport.applyStep, hstep, if_pos h0]
      exact ⟨by rw [ha]; exact hspeed, by rw [ha], by rw [ha],
        fun i hi => by simp at hi⟩
    · have ha : w.applyStep =
          { w with prev_shift := w.prev_shift + 1, shift := w.prev_shift + 1 } := by
        simp only [Viewport.applyStep, hstep, if_neg h0]
      exact ⟨by rw [ha]; exact hspeed, by rw [ha], by rw [ha],
        fun i hi => by simp at hi⟩
  | Slowing n =>
    have hslown : IDLE_SCALE_SPEED ≤
        (if n = SLOWING_FRAMES then min w.scale_speed INITIAL_SLOW_SCALE_SPEED
         else w.slow_scale_speed) := by
      by_cases hn : n = SLOWING_FRAMES
      · rw [if_pos hn]
        exact le_min hspeed (by norm_num [IDLE_SCALE_SPEED, INITIAL_SLOW_SCALE_SPEED])
      · rw [if_neg hn]
        exact hslow n hstep hn
    by_cases h0 : 0 < n
    · have ha : w.applyStep =
          { w with
              slow_scale_speed :=
                (if n = SLOWING_FRAMES then min w.scale_speed INITIAL_SLOW_SCALE_SPEED
                 else w.slow_scale_speed)
              scale_speed := IDLE_SCALE_SPEED +
                ((if n = SLOWING_FRAMES then min w.scale_speed INITIAL_SLOW_SCALE_SPEED
                  else w.slow_scale_speed) - IDLE_SCALE_SPEED) *
                  cubic_out ((n : ℝ) / (SLOWING_FRAMES : ℝ)) } := by
        simp only [Viewport.applyStep, hstep, if_pos h0]
      have hc : 0 ≤ cubic_out ((n : ℝ) / (SLOWING_FRAMES : ℝ)) :=
        cubic_out_nonneg _ (by positivity)
      have hm : 0 ≤
          ((if n = SLOWING_FRAMES then min w.scale_speed INITIAL_SLOW_SCALE_SPEED
            else w.slow_scale_speed) - IDLE_SCALE_SPEED) *
            cubic_out ((n : ℝ) / (SLOWING_FRAMES : ℝ)) :=
        mul_nonneg (by linarith) hc
      exact ⟨by rw [ha]; dsimp only; linarith, by rw [ha], by rw [ha],
        fun i hi => by rw [ha]; exact hslown⟩
    · have ha : w.applyStep =
          { w with
              slow_scale_speed :=
                (if n = SLOWING_FRAMES then min w.scale_speed INITIAL_SLOW_SCALE_SPEED
                 else w.slow_scale_speed)
              scale_speed := IDLE_SCALE_SPEED } := by
        simp only [Viewport.applyStep, hstep, if_neg h0]
      exact ⟨by rw [ha], by rw [ha], by rw [ha],
        fun i hi => by rw [ha]; exact hslown⟩

/-- C7: with the reachable-state invariant (`scale_speed` at or above the
idle baseline, and a captured `slow_scale_speed` at or above it whenever
the state is `Slowing`), every tick integrates `scale_speed / FPS` into
`scale`, keeps `scale_speed` at or above the idle baseline, never
decreases `scale`, and preserves the invariant. -/
theorem C7_scale_monotone (v : Viewport) (things : List Thing)
    (hspeed : IDLE_SCALE_SPEED ≤ v.scale_speed)
    (hslow : ∀ i, v.animation.step = .Slowing i →
      IDLE_SCALE_SPEED ≤ v.slow_scale_speed) :
    v.scale ≤ (v.update_animation things).scale ∧
    IDLE_SCALE_SPEED ≤ (v.update_animation things).scale_speed ∧
    (v.update_animation things).scale
      = v.scale + (v.update_animation things).scale_speed / FPS ∧
    (∀ i, (v.update_animation things).animation.step = .Slowing i →
      IDLE_SCALE_SPEED ≤ (v.update_animation things).slow_scale_speed) := by
  set sd := v.scalingDone things with hsd
  set sl := v.slowingDone with hsl
  set v1 : Viewport := { v with animation := v.animation.tick sd sl } with hv1
  have hspeed1 : IDLE_SCALE_SPEED ≤ v1.scale_speed := hspeed
  have hslow1 : ∀ i, v1.animation.step = .Slowing i → i ≠ SLOWING_FRAMES →
      IDLE_SCALE_SPEED ≤ v1.slow_scale_speed := by
    intro i hi hne
    have hi' : v.animation.step.advance sd sl = .Slowing i := hi
    cases hstep : v.animation.step with
    | Idle n =>
      rw [hstep] at hi'
      simp only [AnimStep.advance, AnimStep.next] at hi'
      split_ifs at hi'
    | Pausing n =>
      rw [hstep] at hi'
      simp only [AnimStep.advance, AnimStep.next] at hi'
      split_ifs at hi'
    | Shifting n =>
      rw [hstep] at hi'
      simp only [AnimStep.advance, AnimStep.next] at hi'
      split_ifs at hi'
    | Scaling =>
      rw [hstep] at hi'
      simp only [AnimStep.advance, AnimStep.next] at hi'
      split_ifs at hi'
      simp_all
    | Slowing n =>
      exact hslow n hstep
  have happ := applyStep_props v1 hspeed1 hslow1
  rw [update_animation_eq]
  simp only
  have hfps : (0:ℝ) < FPS := by norm_num [FPS]
  have hidle : (0:ℝ) < IDLE_SCALE_SPEED := by norm_num [IDLE_SCALE_SPEED]
  have hv1scale : v1.scale = v.scale := rfl
  refine ⟨?_, happ.1, by rw [happ.2.1, hv1scale], fun i hi => ?_⟩
  swap
  · exact happ.2.2.2 i (by rw [← happ.2.2.1]; exact hi)
  rw [happ.2.1, hv1scale]
  have : 0 ≤ v1.applyStep.scale_speed / FPS :=
    div_nonneg (by linarith [happ.1]) (le_of_lt hfps)
  linarith

/-- Witness for C7: one tick from the freshly initialized empty viewport. -/
theorem C7_scale_monotone_witness :
    (Viewport.init []).scale ≤ ((Viewport.init []).update_animation []).scale ∧
    IDLE_SCALE_SPEED ≤ ((Viewport.init []).update_animation []).scale_speed := by
  have h := C7_scale_monotone (Viewport.init []) []
    (le_refl _)
    (by intro i hi; simp [Viewport.init, Animation.default, AnimStep.default] at hi)
  exact ⟨h.1, h.2.1⟩

theorem IDLE_FRAMES_def : IDLE_FRAMES = (⌊IDLE_TIME * FPS_Q⌋).toNat := by
  norm_num [IDLE_FRAMES, IDLE_TIME, FPS_Q, FRAME_DURATION, Int.floor_eq_iff]; rfl

theorem PAUSING_FRAMES_def : PAUSING_FRAMES = (⌊PAUSING_TIME * FPS_Q⌋).toNat := by
  norm_num [PAUSING_FRAMES, PAUSING_TIME, FPS_Q, FRAME_DURATION, Int.floor_eq_iff]; rfl

theorem SLOWING_FRAMES_def : SLOWING_FRAMES = (⌊SLOWING_TIME * FPS_Q⌋).toNat := by
  norm_num [SLOWING_FRAMES, SLOWING_TIME, FPS_Q, FRAME_DURATION, Int.floor_eq_iff]; rfl

theorem SHIFTING_FRAMES_def : SHIFTING_FRAMES = (⌊SHIFTING_TIME * FPS_Q⌋).toNat := by
  norm_num [SHIFTING_FRAMES, SHIFTING_TIME, FPS_Q, FRAME_DURATION, Int.floor_eq_iff]; rfl

/-- C8: whenever `collapse()` is absent, the duration display falls back
to scientific notation, divided into years with suffix `y` when the
exponent's sign is positive and directly in seconds with suffix `s`
otherwise. -/
theorem C8_fallback_format (t : TimeScale) (h : t.val.collapse = none) :
    TimeScale.display t =
      (if 0 ≤ t.val.exponent then (t.val.divF YEAR).fmt_exp_break 6 ++ " y"
       else t.val.fmt_exp_break 6 ++ " s") := by
  simp only [TimeScale.display, h, ENumber.timeFallback]

/-- Witness for C8: the duration `{1, 400}` (`10^400` seconds) does not
collapse and renders through the years fallback. -/
theorem C8_fallback_format_witness :
    (TimeScale.mk ⟨1, 400⟩).val.collapse = none ∧
    TimeScale.display (TimeScale.mk ⟨1, 400⟩) =
      ((⟨1, 400⟩ : ENumber).divF YEAR).fmt_exp_break 6 ++ " y" := by
  have h : (TimeScale.mk ⟨1, 400⟩).val.collapse = none := by
    apply collapse_of_infinite
    unfold f64Finite ENumber.value
    push_neg
    simp only
    rw [show ((400:ℝ)) = ((400:ℕ):ℝ) by norm_num, Real.rpow_natCast, one_mul,
      abs_of_pos (by positivity)]
    norm_num
  refine ⟨h, ?_⟩
  rw [C8_fallback_format _ h, if_pos (by norm_num : (0:ℝ) ≤ (⟨1, 400⟩ : ENumber).exponent)]

theorem fts_eval (x : ℝ) (k : ℤ) (m : ℕ) (hx : 0 < x)
    (h1 : (10:ℝ) ^ k ≤ x) (h2 : x < (10:ℝ) ^ (k + 1))
    (hm1 : ((m:ℕ) : ℝ) ≤ x * (10:ℝ) ^ ((4:ℤ) - k))
    (hm2 : x * (10:ℝ) ^ ((4:ℤ) - k) < ((m:ℕ) : ℝ) + 1) :
    float_to_string x = sigDigitsStr m k := by
  have hne : x ≠ 0 := ne_of_gt hx
  have habs : |x| = x := abs_of_pos hx
  have hfl : ⌊Real.logb 10 x⌋ = k := floor_logb_eq x k hx h1 h2
  simp only [float_to_string, hne, if_neg (not_lt.mpr (le_of_lt hx)), if_false,
    habs, hfl]
  have hm : ⌊x * (10:ℝ) ^ ((4:ℤ) - k)⌋ = (m : ℤ) := by
    rw [Int.floor_eq_iff]
    constructor
    · exact_mod_cast hm1
    · exact_mod_cast hm2
  rw [hm, Int.toNat_natCast]
  rfl

theorem collapse_normalize_zero (x : ℝ) (h : |x| < (2:ℝ) ^ (1024:ℕ)) :
    (ENumber.normalize x 0).collapse = some x := by
  have hv : (ENumber.normalize x 0).value = x := by
    rw [value_normalize, Real.rpow_zero, mul_one]
  rw [collapse_of_finite _ (by rw [show f64Finite (ENumber.normalize x 0).value
    = (|(ENumber.normalize x 0).value| < (2:ℝ) ^ (1024:ℕ)) from rfl, hv]; exact h), hv]

theorem display_of_eq (x : ℝ) (h : |x| < (2:ℝ) ^ (1024:ℕ)) :
    TimeScale.display (TimeScale.of x) =
      TimeScale.displaySome (ENumber.normalize x 0) x := by
  simp only [TimeScale.display]
  rw [show (TimeScale.of x).val.collapse = some x from collapse_normalize_zero x h]
  rfl

theorem collapse_eval (a : ENumber) (c : ℝ) (hv : a.value = c)
    (h : |c| < (2:ℝ) ^ (1024:ℕ)) : a.collapse = some c := by
  have hf : f64Finite a.value := by unfold f64Finite; rw [hv]; exact h
  rw [collapse_of_finite a hf, hv]

theorem fmt_exp_break_in_range (a : ENumber) (b : ℕ) (c : ℝ)
    (h1 : -(b:ℝ) ≤ a.exponent) (h2 : a.exponent ≤ (b:ℝ))
    (hc : a.collapse = some c) :
    a.fmt_exp_break b = float_to_string c := by
  unfold ENumber.fmt_exp_break
  rw [if_pos ⟨h1, h2⟩, hc, Option.getD_some]

theorem displayEval60 : TimeScale.display (TimeScale.of 60) = "60 s" := by
  rw [display_of_eq 60 (by norm_num)]
  have hval : ENumber.normalize 60 0 = ⟨6, 1⟩ := by
    rw [normalize_eval 60 0 1 (by norm_num) (by norm_num) (by norm_num)]
    norm_num [ENumber.mk.injEq]
  simp only [TimeScale.displaySome]
  rw [if_pos (show (60:ℝ) ≤ MINUTE by norm_num [MINUTE]), hval,
    fmt_exp_break_in_range ⟨6, 1⟩ 6 60 (by norm_num) (by norm_num)
      (collapse_eval ⟨6, 1⟩ 60
        (by unfold ENumber.value; norm_num [Real.rpow_one]) (by norm_num)),
    fts_eval 60 1 60000 (by norm_num) (by norm_num) (by norm_num)
      (by norm_num) (by norm_num)]
  decide

theorem displayEval500 : TimeScale.display (TimeScale.of 500) = "8 m 20 s" := by
  rw [display_of_eq 500 (by norm_num)]
  simp only [TimeScale.displaySome]
  rw [if_neg (show ¬ (500:ℝ) ≤ MINUTE by norm_num [MINUTE]),
    if_pos (show (500:ℝ) ≤ HOUR by norm_num [HOUR])]
  have hfloor : ⌊(500:ℝ) / MINUTE⌋ = 8 := by
    rw [Int.floor_eq_iff]
    norm_num [MINUTE]
  have hdiv : fdivEuclid 500 MINUTE = 8 := by
    rw [fdivEuclid, hfloor]; norm_num
  have hrem : fremEuclid 500 MINUTE = 20 := by
    rw [fremEuclid, hfloor]; norm_num [MINUTE]
  rw [hdiv, hrem, if_pos (show (20:ℝ) ≠ 0 by norm_num),
    show fmtRound0 (8:ℝ) = intStr 8 by rw [fmtRound0]; norm_num [round_eq],
    show fmtRound0 (20:ℝ) = intStr 20 by rw [fmtRound0]; norm_num [round_eq]]
  decide

theorem displayEval3600 : TimeScale.display (TimeScale.of 3600) = "60 m" := by
  rw [display_of_eq 3600 (by norm_num)]
  simp only [TimeScale.displaySome]
  rw [if_neg (show ¬ (3600:ℝ) ≤ MINUTE by norm_num [MINUTE]),
    if_pos (show (3600:ℝ) ≤ HOUR by norm_num [HOUR])]
  have hfloor : ⌊(3600:ℝ) / MINUTE⌋ = 60 := by
    rw [Int.floor_eq_iff]
    norm_num [MINUTE]
  have hdiv : fdivEuclid 3600 MINUTE = 60 := by
    rw [fdivEuclid, hfloor]; norm_num
  have hrem : fremEuclid 3600 MINUTE = 0 := by
    rw [fremEuclid, hfloor]; norm_num [MINUTE]
  rw [hdiv, hrem, if_neg (show ¬ (0:ℝ) ≠ 0 by norm_num),
    show fmtRound0 (60:ℝ) = intStr 60 by rw [fmtRound0]; norm_num [round_eq]]
  decide

theorem displayEval86400 : TimeScale.display (TimeScale.of 86400) = "24 h" := by
  rw [display_of_eq 86400 (by norm_num)]
  simp only [TimeScale.displaySome]
  rw [if_neg (show ¬ (86400:ℝ) ≤ MINUTE by norm_num [MINUTE]),
    if_neg (show ¬ (86400:ℝ) ≤ HOUR by norm_num [HOUR]),
    if_pos (show (86400:ℝ) ≤ DAY by norm_num [DAY])]
  have hfloor : ⌊(86400:ℝ) / HOUR⌋ = 24 := by
    rw [Int.floor_eq_iff]
    norm_num [HOUR]
  have hdiv : fdivEuclid 86400 HOUR = 24 := by
    rw [fdivEuclid, hfloor]; norm_num
  have hrem : fremEuclid 86400 HOUR / MINUTE = 0 := by
    rw [fremEuclid, hfloor]; norm_num [HOUR, MINUTE]
  rw [hdiv, hrem, if_neg (show ¬ (0:ℝ) ≠ 0 by norm_num),
    show fmtRound0 (24:ℝ) = intStr 24 by rw [fmtRound0]; norm_num [round_eq]]
  decide

theorem displayEvalYear :
    TimeScale.display (TimeScale.of 31556952) = "365.24 d" := by
  rw [display_of_eq 31556952 (by norm_num)]
  simp only [TimeScale.displaySome]
  rw [if_neg (show ¬ (31556952:ℝ) ≤ MINUTE by norm_num [MINUTE]),
    if_neg (show ¬ (31556952:ℝ) ≤ HOUR by norm_num [HOUR]),
    if_neg (show ¬ (31556952:ℝ) ≤ DAY by norm_num [DAY]),
    if_pos (show (31556952:ℝ) ≤ YEAR by norm_num [YEAR]),
    fts_eval ((31556952:ℝ) / DAY) 2 36524 (by norm_num [DAY])
      (by norm_num [DAY]) (by norm_num [DAY]) (by norm_num [DAY])
      (by norm_num [DAY])]
  decide

theorem displayEval95Y :
    TimeScale.display (TimeScale.of (9.5 * 31556952)) = "9.5 y" := by
  rw [display_of_eq (9.5 * 31556952) (by norm_num)]
  simp only [TimeScale.displaySome]
  rw [if_neg (show ¬ (9.5 * 31556952:ℝ) ≤ MINUTE by norm_num [MINUTE]),
    if_neg (show ¬ (9.5 * 31556952:ℝ) ≤ HOUR by norm_num [HOUR]),
    if_neg (show ¬ (9.5 * 31556952:ℝ) ≤ DAY by norm_num [DAY]),
    if_neg (show ¬ (9.5 * 31556952:ℝ) ≤ YEAR by norm_num [YEAR]),
    if_pos (show (9.5 * 31556952:ℝ) / YEAR < MEGA by norm_num [YEAR, MEGA]),
    fts_eval ((9.5 * 31556952:ℝ) / YEAR) 0 95000 (by norm_num [YEAR])
      (by norm_num [YEAR]) (by norm_num [YEAR]) (by norm_num [YEAR])
      (by norm_num [YEAR])]
  decide

theorem displayEvalMegaYear :
    TimeScale.display (TimeScale.of (1000000 * 31556952)) = "1 My" := by
  rw [display_of_eq (1000000 * 31556952) (by norm_num)]
  simp only [TimeScale.displaySome]
  rw [if_neg (show ¬ (1000000 * 31556952:ℝ) ≤ MINUTE by norm_num [MINUTE]),
    if_neg (show ¬ (1000000 * 31556952:ℝ) ≤ HOUR by norm_num [HOUR]),
    if_neg (show ¬ (1000000 * 31556952:ℝ) ≤ DAY by norm_num [DAY]),
    if_neg (show ¬ (1000000 * 31556952:ℝ) ≤ YEAR by norm_num [YEAR]),
    if_neg (show ¬ (1000000 * 31556952:ℝ) / YEAR < MEGA by norm_num [YEAR, MEGA]),
    if_pos (show (1000000 * 31556952:ℝ) / YEAR < GIGA by norm_num [YEAR, GIGA]),
    fts_eval ((1000000 * 31556952:ℝ) / YEAR / MEGA) 0 10000
      (by norm_num [YEAR, MEGA]) (by norm_num [YEAR, MEGA])
      (by norm_num [YEAR, MEGA]) (by norm_num [YEAR, MEGA])
      (by norm_num [YEAR, MEGA])]
  decide

/-- C6: the literal duration formatting table. -/
theorem C6_duration_format_table :
    TimeScale.display (TimeScale.of 60) = "60 s" ∧
    TimeScale.display (TimeScale.of 500) = "8 m 20 s" ∧
    TimeScale.display (TimeScale.of 3600) = "60 m" ∧
    TimeScale.display (TimeScale.of 86400) = "24 h" ∧
    TimeScale.display (TimeScale.of 31556952) = "365.24 d" ∧
    TimeScale.display (TimeScale.of (9.5 * 31556952)) = "9.5 y" ∧
    TimeScale.display (TimeScale.of (1000000 * 31556952)) = "1 My" :=
  ⟨displayEval60, displayEval500, displayEval3600, displayEval86400,
   displayEvalYear, displayEval95Y, displayEvalMegaYear⟩
